import Mathlib

/-!
Verification model of the Frontier Mining Tracker import scripts
(`tools/import_items.py`, `tools/import_vehicles.py`,
`tools/import_locations.py`).

Numbers are modelled exactly as rationals (`ℚ`); spreadsheet cells are a
sum type covering the values pandas delivers (missing/NaN, string, number,
boolean).  Fallible conversions (`float(...)` on a malformed string) are
modelled with `Except`.  All recursions are structural (with explicit fuel
where the source loops), so every definition evaluates by `decide`/`rfl`
on concrete inputs.
-/

deriving instance DecidableEq for Except

namespace Frontier

/-- ASCII whitespace, the characters Python `str.strip` and the regex
class `\s` treat as whitespace for the inputs in play (space, tab, CR,
LF).  Non-ASCII Unicode whitespace is out of the model. -/
def isWs (c : Char) : Bool :=
  c = ' ' || c = '\t' || c = '\n' || c = '\r'

/-- Drop leading and trailing whitespace from a character list
(model of Python `str.strip`). -/
def trimBoth (l : List Char) : List Char :=
  ((((l.dropWhile isWs).reverse).dropWhile isWs).reverse)

/-- Model of Python `str.strip` on strings. -/
def pyStrip (s : String) : String :=
  ⟨trimBoth s.data⟩

/-- Model of Python `str.lower` restricted to ASCII (all characters the
importers compare are ASCII or unaffected by Unicode lower-casing). -/
def pyLower (s : String) : String :=
  ⟨s.data.map Char.toLower⟩

/-- Model of Python `str.upper` restricted to ASCII. -/
def pyUpper (s : String) : String :=
  ⟨s.data.map Char.toUpper⟩

/-- Decimal digit character for a digit value below 10. -/
def digitChar (d : Nat) : Char :=
  Char.ofNat (48 + d)

/-- Fuel-driven most-significant-first decimal rendering of a natural
number; fuel bounds the number of division steps. -/
def natDigitsFuel : Nat → Nat → List Char → List Char
  | 0, _, acc => acc
  | fuel + 1, n, acc =>
    if n < 10 then digitChar n :: acc
    else natDigitsFuel fuel (n / 10) (digitChar (n % 10) :: acc)

/-- Model of Python `str(n)` for a natural number. -/
def pyNatStr (n : Nat) : String :=
  ⟨natDigitsFuel (n + 1) n []⟩

/-- Model of Python `str(n)` for an integer. -/
def pyIntStr (n : Int) : String :=
  if n < 0 then "-" ++ pyNatStr n.natAbs else pyNatStr n.natAbs

/-- Model of Python `str(x)` for a float cell value.  Integral floats
print exactly (`100.0`); the importers' theorems only ever stringify
integral or missing values, so the non-integral fallback (num/den) is a
documented approximation of Python's shortest-decimal printing. -/
def ratPyStr (x : ℚ) : String :=
  if x.den = 1 then pyIntStr x.num ++ ".0"
  else pyIntStr x.num ++ "/" ++ pyNatStr x.den

/-- Numeric value of a most-significant-first digit list. -/
def digitsVal (l : List Char) : Nat :=
  l.foldl (fun a c => 10 * a + (c.toNat - 48)) 0

/-- A spreadsheet cell as pandas delivers it to the import scripts:
missing (NaN), a string, a number, or a boolean. -/
inductive CellVal where
  | na : CellVal
  | str (s : String) : CellVal
  | num (x : ℚ) : CellVal
  | boolv (b : Bool) : CellVal
deriving DecidableEq, Repr

/-- Model of Python `str(cell)`: a missing value stringifies to `"nan"`
(the string form of the float NaN pandas uses for missing cells). -/
def pyStr : CellVal → String
  | .na => "nan"
  | .str s => s
  | .num x => ratPyStr x
  | .boolv b => if b then "True" else "False"

/-- Parse a decimal literal the way Python `float(str)` accepts the
numeric strings in play: optional surrounding whitespace, optional sign,
digits with at most one point, at least one digit. -/
def parseDecimal (s : String) : Option ℚ :=
  let l := trimBoth s.data
  let signed : ℚ × List Char :=
    match l with
    | '-' :: rest => (-1, rest)
    | '+' :: rest => (1, rest)
    | _ => (1, l)
  let sign := signed.1
  let body := signed.2
  let intPart := body.takeWhile (fun c => c ≠ '.')
  let rest := body.drop intPart.length
  match rest with
  | [] =>
    if intPart ≠ [] ∧ intPart.all Char.isDigit then
      some (sign * (digitsVal intPart : ℚ))
    else none
  | '.' :: frac =>
    if intPart.all Char.isDigit ∧ frac.all Char.isDigit ∧
        (intPart ≠ [] ∨ frac ≠ []) then
      some (sign * ((digitsVal intPart : ℚ) +
        (digitsVal frac : ℚ) / (10 : ℚ) ^ frac.length))
    else none
  | _ => none

/-- Model of Python `float(cell)`.  A malformed string raises
(`Except.error`); the `na` branch is never reached by the importers
(every call site is guarded by `pd.notna`) and is modelled as 0. -/
def pyFloatCell : CellVal → Except String ℚ
  | .na => .ok 0
  | .str s =>
    match parseDecimal s with
    | some x => .ok x
    | none => .error ("could not convert string to float: " ++ s)
  | .num x => .ok x
  | .boolv b => .ok (if b then 1 else 0)

/-- Model of the recurring source expression
`float(v) if pd.notna(v) else 0.0`. -/
def floatOrZero (v : CellVal) : Except String ℚ :=
  if v = .na then .ok 0 else pyFloatCell v

/-- Model of Python `round` (banker's rounding, half to even) followed by
`int(...)`, on exact rationals. -/
def pyRound (q : ℚ) : ℤ :=
  let f := q.floor
  let r := q - (f : ℚ)
  if r < 1 / 2 then f
  else if 1 / 2 < r then f + 1
  else if f % 2 = 0 then f else f + 1

/-- `calculate_sell_price` from `import_items.py`: sell price as a fixed
fraction of the buy price (the callers always use the default rate 0.70,
passed here explicitly). -/
def calculate_sell_price (buy_price sell_rate : ℚ) : ℚ :=
  buy_price * sell_rate

/-- `round_display_price` from `import_items.py`: `int(round(price))`. -/
def round_display_price (price : ℚ) : ℤ :=
  pyRound price

/-- `Except` carries an error. -/
def isErr {α : Type} : Except String α → Bool
  | .error _ => true
  | .ok _ => false

/-- A normalized item record, the dictionary built by
`load_from_excel` / `load_from_json` in `import_items.py`. -/
structure Item where
  code : String
  name : String
  category_main : String
  category_sub : String
  buy_price_internal : ℚ
  buy_price_display : ℤ
  sell_price_internal : ℚ
  sell_price_display : ℤ
  weight : ℚ
  is_purchasable : Bool
  is_sellable : Bool
  is_craftable : Bool
  pricing_group : String
  notes : String
deriving DecidableEq, Repr

/-- One spreadsheet row for the item importer, with the column-alias
resolution of `get_column` already applied: each field is the value of
the first matching alias column, or `na` when no alias column exists or
the cell is empty (`get_column` then yields the default `None`, which
`pd.isna` treats like NaN). -/
structure ItemRow where
  name : CellVal := .na
  category_main : CellVal := .na
  category_sub : CellVal := .na
  buy_price : CellVal := .na
  sell_price : CellVal := .na
  weight : CellVal := .na
  can_buy : CellVal := .na
  can_sell : CellVal := .na
  craftable : CellVal := .na
  code : CellVal := .na
  notes : CellVal := .na
deriving DecidableEq, Repr

/-- `parse_bool` from `load_from_excel`: missing values take the default;
booleans pass through; numbers are truthy iff non-zero; anything else is
stringified, lower-cased, stripped and matched against the literal list
in the source.  The fifth list entry is the source's literal `'âœ“'`
(bytes C3 A2 C5 93 E2 80 9C, the UTF-8 encoding of `✓` decoded once more
as UTF-8), not the checkmark `✓` itself. -/
def parse_bool (val : CellVal) (default : Bool) : Bool :=
  match val with
  | .na => default
  | .boolv b => b
  | .num x => x != 0
  | .str s =>
    let val_str := pyStrip (pyLower s)
    val_str = "true" || val_str = "yes" || val_str = "1" || val_str = "y" ||
      val_str = "âœ“" || val_str = "x"

/-- The per-row body of the `load_from_excel` loop in `import_items.py`:
`Except.error` models the uncaught Python exception of a malformed
`float(...)`, `Option.none` the `continue` that skips a nameless row.
(`pd.isna(name)` is always false there because `name` is already the
result of `str(...)`; only the `'nan'` and blank checks can fire.) -/
def itemOfRow (r : ItemRow) : Except String (Option Item) :=
  let name := pyStr r.name
  if name = "nan" || pyStrip name = "" then .ok none
  else
    let category_main := if pyStr r.category_main = "nan" then "" else pyStr r.category_main
    let category_sub := if pyStr r.category_sub = "nan" then "" else pyStr r.category_sub
    match floatOrZero r.buy_price with
    | .error e => .error e
    | .ok buy_price_internal =>
      match (if r.sell_price ≠ .na then pyFloatCell r.sell_price
             else .ok (calculate_sell_price buy_price_internal (7 / 10))) with
      | .error e => .error e
      | .ok sell_price_internal =>
        match floatOrZero r.weight with
        | .error e => .error e
        | .ok weight =>
          .ok (some {
            code := if r.code ≠ .na ∧ pyStr r.code ≠ "nan" then pyStr r.code else ""
            name := pyStrip name
            category_main := pyStrip category_main
            category_sub := pyStrip category_sub
            buy_price_internal := buy_price_internal
            buy_price_display := round_display_price buy_price_internal
            sell_price_internal := sell_price_internal
            sell_price_display := round_display_price sell_price_internal
            weight := weight
            is_purchasable := parse_bool r.can_buy true
            is_sellable := parse_bool r.can_sell true
            is_craftable := parse_bool r.craftable false
            pricing_group := "Base70"
            notes := if r.notes ≠ .na ∧ pyStr r.notes ≠ "nan" then pyStrip (pyStr r.notes) else "" })

/-- `load_from_excel` from `import_items.py`: process rows in order,
skipping nameless rows; the first malformed numeric field aborts the
whole run. -/
def load_from_excel : List ItemRow → Except String (List Item)
  | [] => .ok []
  | r :: rs =>
    match itemOfRow r with
    | .error e => .error e
    | .ok hd =>
      match load_from_excel rs with
      | .error e => .error e
      | .ok tl =>
        match hd with
        | none => .ok tl
        | some it => .ok (it :: tl)

/-- A JSON item object as `load_from_json` reads it, restricted to the
JSON value types the importer expects for each key (numbers for prices
and weight, strings for text, booleans for flags); `none` is an absent
key.  Each field is one of the keys the source looks up; the two display
keys are written by `export_to_json` and ignored on load. -/
structure JItem where
  code : Option String := none
  name : Option String := none
  category_main : Option String := none
  categoryMain : Option String := none
  category : Option String := none
  category_sub : Option String := none
  categorySub : Option String := none
  buy_price_internal : Option ℚ := none
  buyPrice : Option ℚ := none
  buy_price : Option ℚ := none
  sell_price_internal : Option ℚ := none
  sellPriceInternal : Option ℚ := none
  sell_price : Option ℚ := none
  buy_price_display : Option ℤ := none
  sell_price_display : Option ℤ := none
  weight : Option ℚ := none
  is_purchasable : Option Bool := none
  isPurchasable : Option Bool := none
  is_sellable : Option Bool := none
  isSellable : Option Bool := none
  is_craftable : Option Bool := none
  isCraftable : Option Bool := none
  pricing_group : Option String := none
  pricingGroup : Option String := none
  notes : Option String := none
deriving DecidableEq, Repr

/-- Python `a or b` on optional numbers: an absent key (`None`) and the
falsy number 0 both fall through to `b`. -/
def pyOrN (a b : Option ℚ) : Option ℚ :=
  match a with
  | some x => if x = 0 then b else some x
  | none => b

/-- Python `a or b` on optional strings: an absent key (`None`) and the
falsy empty string both fall through to `b`. -/
def pyOrS (a b : Option String) : Option String :=
  match a with
  | some s => if s = "" then b else some s
  | none => b

/-- The per-object body of the `load_from_json` loop in
`import_items.py`.  The `or`-chains for the buy price, sell price and
categories use Python truthiness (`pyOrN`/`pyOrS`); the chains for the
buy price and the categories end in a `get` with a default, so they
always produce a value.  `float(...)` is the identity on the
number-typed fields of this model. -/
def jsonItem (j : JItem) : Item :=
  let buy_internal := (pyOrN j.buy_price_internal (pyOrN j.buyPrice (some (j.buy_price.getD 0)))).getD 0
  let sell_chain := pyOrN j.sell_price_internal (pyOrN j.sellPriceInternal j.sell_price)
  let sell_internal :=
    match sell_chain with
    | none => calculate_sell_price buy_internal (7 / 10)
    | some x => x
  { code := j.code.getD ""
    name := j.name.getD ""
    category_main := (pyOrS j.category_main (pyOrS j.categoryMain (some (j.category.getD "")))).getD ""
    category_sub := (pyOrS j.category_sub (some (j.categorySub.getD ""))).getD ""
    buy_price_internal := buy_internal
    buy_price_display := round_display_price buy_internal
    sell_price_internal := sell_internal
    sell_price_display := round_display_price sell_internal
    weight := j.weight.getD 0
    is_purchasable := j.is_purchasable.getD (j.isPurchasable.getD true)
    is_sellable := j.is_sellable.getD (j.isSellable.getD true)
    is_craftable := j.is_craftable.getD (j.isCraftable.getD false)
    pricing_group := j.pricing_group.getD (j.pricingGroup.getD "Base70")
    notes := j.notes.getD "" }

/-- `load_from_json` from `import_items.py`: one record per JSON object,
no row is ever skipped. -/
def load_from_json (data : List JItem) : List Item :=
  data.map jsonItem

/-- The JSON object `json.dump` writes for one record in
`export_to_json`: every record field under its canonical snake_case key
(the alias keys of older files are never written). -/
def exportJItem (it : Item) : JItem :=
  { code := some it.code
    name := some it.name
    category_main := some it.category_main
    category_sub := some it.category_sub
    buy_price_internal := some it.buy_price_internal
    buy_price_display := some it.buy_price_display
    sell_price_internal := some it.sell_price_internal
    sell_price_display := some it.sell_price_display
    weight := some it.weight
    is_purchasable := some it.is_purchasable
    is_sellable := some it.is_sellable
    is_craftable := some it.is_craftable
    pricing_group := some it.pricing_group
    notes := some it.notes }

/-- `export_to_json` from `import_items.py`. -/
def export_to_json (items : List Item) : List JItem :=
  items.map exportJItem

/-- Characters kept by the regex `[^a-zA-Z0-9\s]` removal in
`generate_vehicle_id`: ASCII letters, digits and whitespace. -/
def keepIdChar (c : Char) : Bool :=
  c.isAlpha || c.isDigit || isWs c

/-- Model of `re.sub(r"\s+", "_", ...)`: replace each maximal run of
whitespace by a single underscore.  The flag records whether the
previous character was whitespace (i.e. whether we are inside a run). -/
def collapseWsAux (inRun : Bool) : List Char → List Char
  | [] => []
  | c :: rest =>
    if isWs c then
      if inRun then collapseWsAux true rest
      else '_' :: collapseWsAux true rest
    else c :: collapseWsAux false rest

/-- Replace each maximal whitespace run by one underscore. -/
def collapseWs (l : List Char) : List Char :=
  collapseWsAux false l

/-- `generate_vehicle_id` from `import_vehicles.py`: remove every
character that is not an ASCII letter, digit or whitespace, strip, then
collapse whitespace runs to underscores and upper-case. -/
def generate_vehicle_id (name : String) : String :=
  ⟨(collapseWs (trimBoth (name.data.filter keepIdChar))).map Char.toUpper⟩

/-- Model of Python `str.replace(pat, repl)` (all non-overlapping
occurrences, left to right); fuel bounds the scan and is spent one
character per step, so `l.length` fuel always suffices. -/
def replaceAllFuel (pat repl : List Char) : Nat → List Char → List Char
  | _, [] => []
  | 0, l => l
  | fuel + 1, c :: r =>
    if pat ≠ [] ∧ pat.isPrefixOf (c :: r) then
      repl ++ replaceAllFuel pat repl fuel ((c :: r).drop pat.length)
    else
      c :: replaceAllFuel pat repl fuel r

/-- Model of Python `str.replace` on strings. -/
def pyReplace (s pat repl : String) : String :=
  ⟨replaceAllFuel pat.data repl.data s.data.length s.data⟩

/-- `parse_category` from `import_vehicles.py`.  The Category column is
modelled as text-or-missing (`Option String`): the source calls the
string method `.replace` on it, so only string or NaN cells occur. -/
def parse_category (category : Option String) : String × String :=
  match category with
  | none => ("Unknown", "")
  | some c =>
    let main := pyStrip (pyReplace c "Vehicles - " "")
    match main with
    | "Rock Trucks" => ("Rock Truck", "Haul Truck")
    | "Excavators" => ("Excavator", "Crawler")
    | "Loaders" => ("Loader", "Wheel Loader")
    | "Dozers" => ("Dozer", "Crawler Dozer")
    | "Graders" => ("Grader", "Motor Grader")
    | "Paving" => ("Paving", "Road Equipment")
    | "Trucks" => ("Truck", "Utility Truck")
    | "Fuel Trucks" => ("Truck", "Fuel Truck")
    | "Flying" => ("Drone", "UAV")
    | "Tunneler" => ("Tunneler", "Underground")
    | _ => (main, "")

/-- `determine_capacity_type` from `import_vehicles.py`. -/
def determine_capacity_type (category_main : String) : String :=
  if category_main = "Rock Truck" ∨ category_main = "Truck" then "truck" else "bucket"

/-- The candidate identifiers tried by the duplicate-id loop: first the
original, then `original_2`, `original_3`, ... -/
def cand (original : String) : Nat → String
  | 0 => original
  | k + 1 => original ++ "_" ++ pyNatStr (k + 2)

/-- The `while vehicle_id in seen_ids` loop of
`convert_excel_to_vehicles`: starting from candidate index `k`, return
the first index whose candidate is unused.  Fuel `seen.length + 1`
always reaches a fresh candidate (`firstFreshFuel_spec`). -/
def firstFreshFuel (original : String) (seen : List String) : Nat → Nat → Nat
  | 0, k => k
  | fuel + 1, k => if cand original k ∈ seen then firstFreshFuel original seen fuel (k + 1) else k

/-- The identifier the duplicate-id loop settles on. -/
def pickId (original : String) (seen : List String) : String :=
  cand original (firstFreshFuel original seen (seen.length + 1) 0)

/-- A normalized vehicle record, the dictionary built by
`convert_excel_to_vehicles`.  `active` is the literal integer 1 the
source stores. -/
structure Vehicle where
  id : String
  name : String
  category_main : String
  category_sub : String
  bucket_capacity_m3 : ℚ
  truck_capacity_m3 : ℚ
  tank_capacity_l : ℚ
  fuel_use_l_per_hour : ℚ
  purchase_price : ℚ
  active : ℤ
  notes : String
deriving DecidableEq, Repr

/-- One spreadsheet row for the vehicle importer (fixed column names). -/
structure VehicleRow where
  vehicle_name : CellVal := .na
  category : Option String := none
  capacity_m3 : CellVal := .na
  fuel_capacity_l : CellVal := .na
  fuel_use_l_per_hour : CellVal := .na
  purchase_price : CellVal := .na
  notes : CellVal := .na
deriving DecidableEq, Repr

/-- The body of one iteration of the `convert_excel_to_vehicles` row
loop, given the identifiers already produced (`seen_ids`). -/
def vehicleOfRow (seen : List String) (r : VehicleRow) : Except String Vehicle :=
  let name := pyStrip (pyStr r.vehicle_name)
  let vehicle_id := pickId (generate_vehicle_id name) seen
  let cm := parse_category r.category
  let capacity_type := determine_capacity_type cm.1
  match floatOrZero r.capacity_m3 with
  | .error e => .error e
  | .ok capacity_m3 =>
    match floatOrZero r.fuel_capacity_l with
    | .error e => .error e
    | .ok tank_capacity_l =>
      match floatOrZero r.fuel_use_l_per_hour with
      | .error e => .error e
      | .ok fuel_use =>
        match floatOrZero r.purchase_price with
        | .error e => .error e
        | .ok purchase_price =>
          .ok {
            id := vehicle_id
            name := name
            category_main := cm.1
            category_sub := cm.2
            bucket_capacity_m3 := if capacity_type = "bucket" then capacity_m3 else 0
            truck_capacity_m3 := if capacity_type = "truck" then capacity_m3 else 0
            tank_capacity_l := tank_capacity_l
            fuel_use_l_per_hour := fuel_use
            purchase_price := purchase_price
            active := 1
            notes := if r.notes ≠ .na then pyStr r.notes else "" }

/-- The row loop of `convert_excel_to_vehicles`, with the mutable
`seen_ids` set made an explicit accumulator (its membership is all the
source uses; each picked id is appended after its row). -/
def convertAux (seen : List String) : List VehicleRow → Except String (List Vehicle)
  | [] => .ok []
  | r :: rs =>
    match vehicleOfRow seen r with
    | .error e => .error e
    | .ok v =>
      match convertAux (seen ++ [v.id]) rs with
      | .error e => .error e
      | .ok rest => .ok (v :: rest)

/-- `convert_excel_to_vehicles` from `import_vehicles.py`. -/
def convert_excel_to_vehicles (rows : List VehicleRow) : Except String (List Vehicle) :=
  convertAux [] rows

/-- Find the first occurrence of `sep` in a character list, returning
the part before it and the part after it. -/
def splitFirst (sep : List Char) : List Char → Option (List Char × List Char)
  | [] => none
  | c :: r =>
    if sep.isPrefixOf (c :: r) then some ([], (c :: r).drop sep.length)
    else
      match splitFirst sep r with
      | some p => some (c :: p.1, p.2)
      | none => none

/-- `extract_abbreviation` from `import_locations.py`: the trimmed part
of the location name before the first `" - "`, or empty when the
separator is absent (`'sep' in name` followed by `name.split(sep)[0]`). -/
def extract_abbreviation (location_name : String) : String :=
  match splitFirst " - ".data location_name.data with
  | some p => pyStrip ⟨p.1⟩
  | none => ""

/-- First-occurrence deduplication, the order `DataFrame.drop_duplicates`
and `Series.unique` keep. -/
def dedupFirstAux {α : Type} [DecidableEq α] (seen : List α) : List α → List α
  | [] => []
  | x :: r => if x ∈ seen then dedupFirstAux seen r else x :: dedupFirstAux (x :: seen) r

/-- First-occurrence deduplication. -/
def dedupFirst {α : Type} [DecidableEq α] (l : List α) : List α :=
  dedupFirstAux [] l

/-- Lexicographic comparison of character lists by code point, the
ordering Python string comparison and `sorted` use. -/
def lexLe : List Char → List Char → Bool
  | [], _ => true
  | _ :: _, [] => false
  | a :: as, b :: bs =>
    if a.toNat < b.toNat then true
    else if b.toNat < a.toNat then false
    else lexLe as bs

/-- Python `s <= t` on strings (code-point lexicographic). -/
def pyStrLe (s t : String) : Bool :=
  lexLe s.data t.data

/-- Insert into a sorted list, before the first strictly larger element;
keeps insertion stable for equal keys. -/
def insertLe {α : Type} (le : α → α → Bool) (x : α) : List α → List α
  | [] => [x]
  | y :: r => if le x y then x :: y :: r else y :: insertLe le x r

/-- Stable insertion sort, the model of `DataFrame.sort_values` /
`sorted` (both deterministic on a fixed input). -/
def insertionSort {α : Type} (le : α → α → Bool) : List α → List α
  | [] => []
  | x :: r => insertLe le x (insertionSort le r)

/-- One row of the locations spreadsheet (`Location`, `Map`, `Type`
columns; all text, as the string operations of the source require). -/
structure LocationRow where
  location : String
  map : String
  ltype : String
deriving DecidableEq, Repr

/-- One entry of `maps.json` (the source key `abbrev` is a Lean keyword, hence `abbr`). -/
structure MapEntry where
  id : Nat
  abbr : String
  name : String
deriving DecidableEq, Repr

/-- One entry of `location_types.json`. -/
structure TypeEntry where
  id : Nat
  name : String
deriving DecidableEq, Repr

/-- One entry of `locations.json`. -/
structure LocEntry where
  id : Nat
  name : String
  map_id : Nat
  type_id : Nat
deriving DecidableEq, Repr

/-- Assign 1-based sequential ids to the sorted (abbrev, map-name)
pairs, in order. -/
def numberMaps (n : Nat) : List (String × String) → List MapEntry
  | [] => []
  | p :: r => ⟨n, p.1, p.2⟩ :: numberMaps (n + 1) r

/-- Assign 1-based sequential ids to the sorted type names, in order. -/
def numberTypes (n : Nat) : List String → List TypeEntry
  | [] => []
  | t :: r => ⟨n, t⟩ :: numberTypes (n + 1) r

/-- The (Abbrev, Map) pairs of the input rows, in row order. -/
def abbrevMapPairs (rows : List LocationRow) : List (String × String) :=
  rows.map fun r => (extract_abbreviation r.location, r.map)

/-- The maps table of `import_locations.py`: distinct (Abbrev, Map)
pairs (`drop_duplicates`, first occurrence kept), sorted by
abbreviation, numbered from 1. -/
def buildMaps (rows : List LocationRow) : List MapEntry :=
  numberMaps 1 (insertionSort (fun a b => pyStrLe a.1 b.1) (dedupFirst (abbrevMapPairs rows)))

/-- The types table of `import_locations.py`: distinct type names
(`Series.unique`), sorted, numbered from 1. -/
def buildTypes (rows : List LocationRow) : List TypeEntry :=
  numberTypes 1 (insertionSort pyStrLe (dedupFirst (rows.map LocationRow.ltype)))

/-- `map_name_to_id[name] = idx` is assigned once per maps-table entry
in id order, so a later entry with the same map name overwrites an
earlier one: the last matching entry wins.  A missing name would be a
Python `KeyError`; it cannot occur for names taken from the input rows,
and is modelled as 0. -/
def mapNameToId (maps : List MapEntry) (name : String) : Nat :=
  match maps.reverse.find? (fun m => m.name = name) with
  | some m => m.id
  | none => 0

/-- Same lookup for the types table. -/
def typeNameToId (types : List TypeEntry) (name : String) : Nat :=
  match types.reverse.find? (fun t => t.name = name) with
  | some t => t.id
  | none => 0

/-- Number the location rows from 1, referencing map and type ids. -/
def numberLocations (maps : List MapEntry) (types : List TypeEntry) (n : Nat) :
    List LocationRow → List LocEntry
  | [] => []
  | r :: rest =>
    ⟨n, r.location, mapNameToId maps r.map, typeNameToId types r.ltype⟩ ::
      numberLocations maps types (n + 1) rest

/-- The locations table of `import_locations.py`. -/
def buildLocations (rows : List LocationRow) : List LocEntry :=
  numberLocations (buildMaps rows) (buildTypes rows) 1 rows


/-- Spec-side rendering of "collapsing each run of whitespace to a
single underscore", written independently of `collapseWsAux`: a
whitespace character is dropped when another whitespace character
follows, and becomes the underscore of its run when it is the last. -/
def specCollapse : List Char → List Char
  | [] => []
  | [c] => if isWs c then ['_'] else [c]
  | c :: d :: r =>
    if isWs c then
      if isWs d then specCollapse (d :: r) else '_' :: specCollapse (d :: r)
    else c :: specCollapse (d :: r)

/-- The candidate-identifier algorithm exactly as the specification
words it: "removing every character that is not an ASCII letter, digit,
or whitespace, collapsing each run of whitespace to a single
underscore, and upper-casing" — with no trimming step. -/
def spec_candidate_id (name : String) : String :=
  ⟨(specCollapse (name.data.filter keepIdChar)).map Char.toUpper⟩

/-- The same algorithm with leading and trailing whitespace trimmed
before collapsing (the amendment the code forces). -/
def spec_candidate_id_trimmed (name : String) : String :=
  ⟨(specCollapse (trimBoth (name.data.filter keepIdChar))).map Char.toUpper⟩

/-! ### Concrete inputs and outputs used by witnesses and counterexamples -/

/-- The spec's example item row: name "Dynamite", buy price 100, no sell
price. -/
def dynamiteRow : ItemRow := { name := .str "Dynamite", buy_price := .num 100 }

/-- The record the item normalizer produces for `dynamiteRow`. -/
def dynamiteItem : Item :=
  { code := "", name := "Dynamite", category_main := "", category_sub := ""
    buy_price_internal := 100, buy_price_display := 100
    sell_price_internal := 70, sell_price_display := 70, weight := 0
    is_purchasable := true, is_sellable := true, is_craftable := false
    pricing_group := "Base70", notes := "" }

/-- A JSON item object carrying an explicit sell price of zero. -/
def c1obj : JItem := { buy_price_internal := some 100, sell_price_internal := some 0 }

/-- A JSON item object carrying the explicit sell price zero under the
alias key `sellPriceInternal`. -/
def c1obj2 : JItem := { buy_price_internal := some 100, sellPriceInternal := some 0 }

/-- A JSON item object carrying a non-zero sell price under the alias
key `sellPriceInternal`. -/
def c1objB : JItem := { buy_price_internal := some 100, sellPriceInternal := some 80 }

/-- An item row with a name and a buy price only. -/
def c2row : ItemRow := { name := .str "Gold Ore", buy_price := .num 50 }

/-- The record the item normalizer produces for `c2row`. -/
def c2item : Item :=
  { code := "", name := "Gold Ore", category_main := "", category_sub := ""
    buy_price_internal := 50, buy_price_display := 50
    sell_price_internal := 35, sell_price_display := 35, weight := 0
    is_purchasable := true, is_sellable := true, is_craftable := false
    pricing_group := "Base70", notes := "" }

/-- A vehicle row with a name only. -/
def c3row : VehicleRow := { vehicle_name := .str "Dozer D11" }

/-- The first record produced for `c3row`. -/
def c3outA : Vehicle :=
  { id := "DOZER_D11", name := "Dozer D11", category_main := "Unknown", category_sub := ""
    bucket_capacity_m3 := 0, truck_capacity_m3 := 0, tank_capacity_l := 0
    fuel_use_l_per_hour := 0, purchase_price := 0, active := 1, notes := "" }

/-- The record produced for a second row identical to `c3row`. -/
def c3outB : Vehicle :=
  { id := "DOZER_D11_2", name := "Dozer D11", category_main := "Unknown", category_sub := ""
    bucket_capacity_m3 := 0, truck_capacity_m3 := 0, tank_capacity_l := 0
    fuel_use_l_per_hour := 0, purchase_price := 0, active := 1, notes := "" }

/-- A bucket-category vehicle row with a missing capacity cell. -/
def c4row : VehicleRow :=
  { vehicle_name := .str "Wheel Loader 990", category := some "Vehicles - Loaders" }

/-- The record produced for `c4row`: both capacity fields are zero. -/
def c4out : Vehicle :=
  { id := "WHEEL_LOADER_990", name := "Wheel Loader 990"
    category_main := "Loader", category_sub := "Wheel Loader"
    bucket_capacity_m3 := 0, truck_capacity_m3 := 0, tank_capacity_l := 0
    fuel_use_l_per_hour := 0, purchase_price := 0, active := 1, notes := "" }

/-- The spec's example vehicle row ("CAT 797F!!", a rock truck). -/
def c6row : VehicleRow :=
  { vehicle_name := .str "CAT 797F!!", category := some "Vehicles - Rock Trucks"
    capacity_m3 := .num 400 }

/-- Two location rows for one map name, one with an "ARC - " prefix and
one without a separator (abbreviation ""). -/
def c7rows : List LocationRow :=
  [{ location := "ARC - North Pit", map := "Arctic", ltype := "Quarry" },
   { location := "Home Base", map := "Arctic", ltype := "Base" }]

/-- An item row with an explicit sell price of zero next to a non-zero
buy price. -/
def c8row : ItemRow :=
  { name := .str "Scrap Metal", buy_price := .num 100, sell_price := .num 0 }

/-- The record the item normalizer produces for `c8row`. -/
def c8item : Item :=
  { code := "", name := "Scrap Metal", category_main := "", category_sub := ""
    buy_price_internal := 100, buy_price_display := 100
    sell_price_internal := 0, sell_price_display := 0, weight := 0
    is_purchasable := true, is_sellable := true, is_craftable := false
    pricing_group := "Base70", notes := "" }

/-- A normalized record with a non-zero sell price (round-trips). -/
def c8good : Item :=
  { code := "", name := "Iron Ore", category_main := "", category_sub := ""
    buy_price_internal := 100, buy_price_display := 100
    sell_price_internal := 70, sell_price_display := 70, weight := 0
    is_purchasable := true, is_sellable := true, is_craftable := false
    pricing_group := "Base70", notes := "" }

/-- An item row whose buy-price cell holds a non-numeric string. -/
def c9badItemRow : ItemRow := { name := .str "Gear", buy_price := .str "12x" }

/-- A vehicle row whose capacity cell holds a non-numeric string. -/
def c9badVehicleRow : VehicleRow :=
  { vehicle_name := .str "Rig", capacity_m3 := .str "n/a" }

/-- An item row with a genuinely absent buy price. -/
def c9naRow : ItemRow := { name := .str "Coal" }

/-- The record the item normalizer produces for `c9naRow`. -/
def c9naItem : Item :=
  { code := "", name := "Coal", category_main := "", category_sub := ""
    buy_price_internal := 0, buy_price_display := 0
    sell_price_internal := 0, sell_price_display := 0, weight := 0
    is_purchasable := true, is_sellable := true, is_craftable := false
    pricing_group := "Base70", notes := "" }

/-- A vehicle row with every cell missing. -/
def c10row : VehicleRow := {}

/-- The record produced for `c10row`: the missing name stringifies to
"nan". -/
def c10veh : Vehicle :=
  { id := "NAN", name := "nan", category_main := "Unknown", category_sub := ""
    bucket_capacity_m3 := 0, truck_capacity_m3 := 0, tank_capacity_l := 0
    fuel_use_l_per_hour := 0, purchase_price := 0, active := 1, notes := "" }

/-! ### Supporting lemmas: decimal rendering and identifier freshness -/

lemma digitChar_toNat {d : Nat} (h : d < 10) : (digitChar d).toNat = 48 + d := by
  interval_cases d <;> decide

lemma natDigitsFuel_congr : ∀ n f1 f2 acc, n < f1 → n < f2 →
    natDigitsFuel f1 n acc = natDigitsFuel f2 n acc := by
  intro n
  induction n using Nat.strong_induction_on with
  | _ n ih =>
    intro f1 f2 acc h1 h2
    match f1, f2 with
    | g1 + 1, g2 + 1 =>
      by_cases h : n < 10
      · simp [natDigitsFuel, h]
      · have hd : n / 10 < n := Nat.div_lt_self (by omega) (by omega)
        simp only [natDigitsFuel, h, if_false]
        exact ih (n / 10) hd _ _ _ (by omega) (by omega)

lemma natDigitsFuel_append : ∀ n f acc, n < f →
    natDigitsFuel f n acc = natDigitsFuel f n [] ++ acc := by
  intro n
  induction n using Nat.strong_induction_on with
  | _ n ih =>
    intro f acc h
    match f with
    | g + 1 =>
      by_cases h10 : n < 10
      · simp [natDigitsFuel, h10]
      · have hd : n / 10 < n := Nat.div_lt_self (by omega) (by omega)
        simp only [natDigitsFuel, h10, if_false]
        rw [ih (n / 10) hd g _ (by omega), ih (n / 10) hd g [digitChar (n % 10)] (by omega),
          List.append_assoc]
        simp

lemma digitsVal_natDigitsFuel : ∀ n f, n < f → digitsVal (natDigitsFuel f n []) = n := by
  intro n
  induction n using Nat.strong_induction_on with
  | _ n ih =>
    intro f h
    match f with
    | g + 1 =>
      by_cases h10 : n < 10
      · simp [natDigitsFuel, h10, digitsVal, digitChar_toNat h10]
      · have hd : n / 10 < n := Nat.div_lt_self (by omega) (by omega)
        simp only [natDigitsFuel, h10, if_false]
        rw [natDigitsFuel_append _ _ _ (by omega), digitsVal, List.foldl_append]
        have hmod : n % 10 < 10 := Nat.mod_lt _ (by omega)
        have := ih (n / 10) hd g (by omega)
        simp only [digitsVal] at this
        simp [this, List.foldl, digitChar_toNat hmod]
        omega

lemma pyNatStr_inj : Function.Injective pyNatStr := by
  intro a b h
  have hdata : natDigitsFuel (a + 1) a [] = natDigitsFuel (b + 1) b [] := congrArg String.data h
  have : digitsVal (natDigitsFuel (a + 1) a []) = digitsVal (natDigitsFuel (b + 1) b []) := by
    rw [hdata]
  rwa [digitsVal_natDigitsFuel a (a + 1) (by omega),
    digitsVal_natDigitsFuel b (b + 1) (by omega)] at this

lemma cand_inj (original : String) : Function.Injective (cand original) := by
  intro a b h
  match a, b with
  | 0, 0 => rfl
  | 0, k + 1 =>
    exfalso
    have hl := congrArg String.length h
    simp [cand, String.length_append] at hl
    have hu : "_".length = 1 := rfl
    omega
  | k + 1, 0 =>
    exfalso
    have hl := congrArg String.length h
    simp [cand, String.length_append] at hl
    have hu : "_".length = 1 := rfl
    omega
  | a + 1, b + 1 =>
    have hd := congrArg String.data h
    simp only [cand, String.data_append] at hd
    have h2 := List.append_cancel_left hd
    have h3 : pyNatStr (a + 2) = pyNatStr (b + 2) := congrArg String.mk h2
    have := pyNatStr_inj h3
    omega

lemma firstFreshFuel_spec (original : String) (seen : List String) :
    ∀ fuel k, (∃ j, k ≤ j ∧ j < k + fuel ∧ cand original j ∉ seen) →
      cand original (firstFreshFuel original seen fuel k) ∉ seen ∧
      k ≤ firstFreshFuel original seen fuel k ∧
      ∀ j, k ≤ j → j < firstFreshFuel original seen fuel k → cand original j ∈ seen := by
  intro fuel
  induction fuel with
  | zero =>
    intro k ⟨j, hj1, hj2, _⟩
    omega
  | succ f ih =>
    intro k ⟨j, hj1, hj2, hj3⟩
    by_cases hk : cand original k ∈ seen
    · have hne : j ≠ k := fun he => hj3 (he ▸ hk)
      have ⟨h1, h2, h3⟩ := ih (k + 1) ⟨j, by omega, by omega, hj3⟩
      refine ⟨by simpa [firstFreshFuel, hk] using h1, ?_, ?_⟩
      · simp only [firstFreshFuel, hk, if_true]
        omega
      · intro i hi1 hi2
        simp only [firstFreshFuel, hk, if_true] at hi2
        rcases Nat.eq_or_lt_of_le hi1 with he | hlt
        · exact he ▸ hk
        · exact h3 i (by omega) hi2
    · refine ⟨by simp [firstFreshFuel, hk], by simp [firstFreshFuel, hk], ?_⟩
      intro i hi1 hi2
      simp only [firstFreshFuel, hk, if_false] at hi2
      omega

lemma exists_fresh (original : String) (seen : List String) :
    ∃ j, j < seen.length + 1 ∧ cand original j ∉ seen := by
  by_contra hall
  push_neg at hall
  have hsub : ((List.range (seen.length + 1)).map (cand original)) ⊆ seen := by
    intro x hx
    obtain ⟨j, hj, rfl⟩ := List.mem_map.mp hx
    exact hall j (List.mem_range.mp hj)
  have hnd : ((List.range (seen.length + 1)).map (cand original)).Nodup :=
    (List.nodup_range _).map (cand_inj original)
  have h1 : ((List.range (seen.length + 1)).map (cand original)).toFinset.card =
      seen.length + 1 := by
    rw [List.toFinset_card_of_nodup hnd]
    simp
  have h2 : ((List.range (seen.length + 1)).map (cand original)).toFinset ⊆ seen.toFinset := by
    intro x hx
    exact List.mem_toFinset.mpr (hsub (List.mem_toFinset.mp hx))
  have h3 := Finset.card_le_card h2
  have h4 := List.toFinset_card_le seen
  omega

lemma pickId_not_mem (original : String) (seen : List String) :
    pickId original seen ∉ seen := by
  obtain ⟨j, hj1, hj2⟩ := exists_fresh original seen
  exact (firstFreshFuel_spec original seen (seen.length + 1) 0 ⟨j, by omega, by omega, hj2⟩).1

lemma pickId_least (original : String) (seen : List String) :
    ∃ k, pickId original seen = cand original k ∧ cand original k ∉ seen ∧
      ∀ j < k, cand original j ∈ seen := by
  obtain ⟨j, hj1, hj2⟩ := exists_fresh original seen
  obtain ⟨h1, _, h3⟩ :=
    firstFreshFuel_spec original seen (seen.length + 1) 0 ⟨j, by omega, by omega, hj2⟩
  exact ⟨_, rfl, h1, fun i hi => h3 i (by omega) hi⟩


/-! ### Supporting lemmas: the vehicle conversion loop -/

lemma vehicleOfRow_ok {seen : List String} {r : VehicleRow} {v : Vehicle}
    (h : vehicleOfRow seen r = .ok v) :
    v.id = pickId (generate_vehicle_id (pyStrip (pyStr r.vehicle_name))) seen ∧
    v.name = pyStrip (pyStr r.vehicle_name) ∧
    v.active = 1 ∧
    v.category_main = (parse_category r.category).1 ∧
    v.category_sub = (parse_category r.category).2 ∧
    (determine_capacity_type v.category_main = "truck" → v.bucket_capacity_m3 = 0) ∧
    (determine_capacity_type v.category_main ≠ "truck" → v.truck_capacity_m3 = 0) ∧
    (v.bucket_capacity_m3 = 0 ∨ v.truck_capacity_m3 = 0) ∧
    (r.capacity_m3 = .na → v.bucket_capacity_m3 = 0 ∧ v.truck_capacity_m3 = 0) := by
  cases hc : floatOrZero r.capacity_m3 with
  | error e => simp [vehicleOfRow, hc] at h
  | ok c =>
    cases ht : floatOrZero r.fuel_capacity_l with
    | error e => simp [vehicleOfRow, hc, ht] at h
    | ok t =>
      cases hf : floatOrZero r.fuel_use_l_per_hour with
      | error e => simp [vehicleOfRow, hc, ht, hf] at h
      | ok f =>
        cases hp : floatOrZero r.purchase_price with
        | error e => simp [vehicleOfRow, hc, ht, hf, hp] at h
        | ok p =>
          simp only [vehicleOfRow, hc, ht, hf, hp, Except.ok.injEq] at h
          subst h
          refine ⟨rfl, rfl, rfl, rfl, rfl, ?_, ?_, ?_, ?_⟩
          · intro htr
            simp [htr]
          · intro htr
            simp [htr]
          · by_cases hb : determine_capacity_type (parse_category r.category).1 = "truck"
            · left
              simp [hb]
            · right
              simp [hb]
          · intro hna
            have : c = 0 := by
              rw [hna] at hc
              simp [floatOrZero] at hc
              first
              | exact hc
              | exact hc.symm
            subst this
            constructor <;> simp

lemma convertAux_spec :
    ∀ (rows : List VehicleRow) (seen : List String) (vs : List Vehicle),
      convertAux seen rows = .ok vs →
      vs.length = rows.length ∧
      (∀ v ∈ vs, v.id ∉ seen) ∧
      (vs.map Vehicle.id).Nodup ∧
      (∀ i (hv : i < vs.length) (hr : i < rows.length),
        vehicleOfRow (seen ++ (vs.take i).map Vehicle.id) (rows.get ⟨i, hr⟩) =
          .ok (vs.get ⟨i, hv⟩)) := by
  intro rows
  induction rows with
  | nil =>
    intro seen vs h
    simp only [convertAux] at h
    cases h
    simp
  | cons r rs ih =>
    intro seen vs h
    cases hv0 : vehicleOfRow seen r with
    | error e => simp [convertAux, hv0] at h
    | ok v =>
      cases hrest : convertAux (seen ++ [v.id]) rs with
      | error e => simp [convertAux, hv0, hrest] at h
      | ok rest =>
        have hvs : vs = v :: rest := by
          simp only [convertAux, hv0, hrest, Except.ok.injEq] at h
          exact h.symm
        subst hvs
        obtain ⟨hlen, hfresh, hnodup, hidx⟩ := ih (seen ++ [v.id]) rest hrest
        have hvid := (vehicleOfRow_ok hv0).1
        refine ⟨by simp [hlen], ?_, ?_, ?_⟩
        · intro v' hv'
          rcases List.mem_cons.mp hv' with rfl | hmem
          · rw [hvid]
            exact pickId_not_mem _ _
          · have := hfresh v' hmem
            intro hcon
            exact this (List.mem_append.mpr (Or.inl hcon))
        · simp only [List.map_cons, List.nodup_cons]
          refine ⟨?_, hnodup⟩
          intro hmem
          obtain ⟨v', hv', he⟩ := List.mem_map.mp hmem
          have := hfresh v' hv'
          rw [he] at this
          exact this (List.mem_append.mpr (Or.inr (by simp)))
        · intro i hv hr
          match i with
          | 0 => simpa using hv0
          | j + 1 =>
            have := hidx j (by simpa using hv) (by simpa using hr)
            simpa [List.append_assoc] using this


/-! ### Supporting lemmas: trimming and the item loaders -/

lemma dropWhile_dropWhile (p : Char → Bool) (l : List Char) :
    (l.dropWhile p).dropWhile p = l.dropWhile p := by
  induction l with
  | nil => rfl
  | cons c r ih =>
    by_cases h : p c
    · simp [List.dropWhile_cons, h, ih]
    · simp [List.dropWhile_cons, h]

lemma prefix_dropWhile_eq {p : Char → Bool} {l₁ l₂ : List Char}
    (hpre : l₁ <+: l₂) (h : l₂.dropWhile p = l₂) : l₁.dropWhile p = l₁ := by
  cases l₁ with
  | nil => rfl
  | cons a t =>
    obtain ⟨s, rfl⟩ := hpre
    by_cases hp : p a
    · exfalso
      have hlen : ((a :: t ++ s).dropWhile p).length ≤ (t ++ s).length := by
        simp only [List.cons_append, List.dropWhile_cons, hp, if_true]
        exact (List.dropWhile_sublist p).length_le
      rw [h] at hlen
      simp at hlen
    · simp [List.dropWhile_cons, hp]

lemma trimBoth_idem (l : List Char) : trimBoth (trimBoth l) = trimBoth l := by
  set w := isWs with hw
  set A := l.dropWhile w with hA
  set B := A.reverse.dropWhile w with hB
  have hAfix : A.dropWhile w = A := dropWhile_dropWhile w l
  have hBfix : B.dropWhile w = B := dropWhile_dropWhile w A.reverse
  have hCpre : B.reverse <+: A := by
    have hsuf : B <:+ A.reverse := List.dropWhile_suffix w
    obtain ⟨s, hs⟩ := hsuf
    refine ⟨s.reverse, ?_⟩
    have := congrArg List.reverse hs
    simpa using this
  have hCfix : (B.reverse).dropWhile w = B.reverse := prefix_dropWhile_eq hCpre hAfix
  show ((((B.reverse).dropWhile w).reverse).dropWhile w).reverse = B.reverse
  rw [hCfix]
  simp only [List.reverse_reverse]
  rw [hBfix]

lemma pyStrip_idem (s : String) : pyStrip (pyStrip s) = pyStrip s := by
  simp only [pyStrip]
  exact congrArg String.mk (trimBoth_idem s.data)

lemma itemOfRow_skip {r : ItemRow}
    (h : pyStr r.name = "nan" ∨ pyStrip (pyStr r.name) = "") :
    itemOfRow r = .ok none := by
  rcases h with h | h <;> simp [itemOfRow, h]

lemma itemOfRow_ok {r : ItemRow} {it : Item} (h : itemOfRow r = .ok (some it)) :
    pyStr r.name ≠ "nan" ∧ pyStrip (pyStr r.name) ≠ "" ∧
    it.name = pyStrip (pyStr r.name) ∧
    (r.buy_price = .na → it.buy_price_internal = 0) ∧
    (r.sell_price = .na →
      it.sell_price_internal = calculate_sell_price it.buy_price_internal (7 / 10)) ∧
    (∀ x, r.sell_price ≠ .na → pyFloatCell r.sell_price = .ok x →
      it.sell_price_internal = x) ∧
    it.buy_price_display = round_display_price it.buy_price_internal ∧
    it.sell_price_display = round_display_price it.sell_price_internal := by
  by_cases hn : pyStr r.name = "nan" ∨ pyStrip (pyStr r.name) = ""
  · rw [itemOfRow_skip hn] at h
    cases h
  · push_neg at hn
    cases hb : floatOrZero r.buy_price with
    | error e => simp [itemOfRow, hn.1, hn.2, hb] at h
    | ok b =>
      by_cases hsna : r.sell_price = .na
      · cases hw : floatOrZero r.weight with
        | error e => simp [itemOfRow, hn.1, hn.2, hb, hsna, hw] at h
        | ok wgt =>
          simp [itemOfRow, hn.1, hn.2, hb, hsna, hw] at h
          subst h
          refine ⟨hn.1, hn.2, rfl, ?_, fun _ => rfl,
            fun x hne _ => absurd hsna hne, rfl, rfl⟩
          intro hbna
          rw [hbna] at hb
          simp [floatOrZero] at hb
          first
          | exact hb
          | exact hb.symm
      · cases hs : pyFloatCell r.sell_price with
        | error e => simp [itemOfRow, hn.1, hn.2, hb, hsna, hs] at h
        | ok sv =>
          cases hw : floatOrZero r.weight with
          | error e => simp [itemOfRow, hn.1, hn.2, hb, hsna, hs, hw] at h
          | ok wgt =>
            simp [itemOfRow, hn.1, hn.2, hb, hsna, hs, hw] at h
            subst h
            refine ⟨hn.1, hn.2, rfl, ?_, fun hna => absurd hna hsna, ?_, rfl, rfl⟩
            · intro hbna
              rw [hbna] at hb
              simp [floatOrZero] at hb
              first
              | exact hb
              | exact hb.symm
            · intro x _ hx
              cases hx
              rfl

lemma load_from_excel_mem :
    ∀ (rows : List ItemRow) (its : List Item), load_from_excel rows = .ok its →
      ∀ it ∈ its, ∃ r ∈ rows, itemOfRow r = .ok (some it) := by
  intro rows
  induction rows with
  | nil =>
    intro its h it hit
    simp only [load_from_excel] at h
    cases h
    cases hit
  | cons r rs ih =>
    intro its h it hit
    cases h0 : itemOfRow r with
    | error e => simp [load_from_excel, h0] at h
    | ok hd =>
      cases h1 : load_from_excel rs with
      | error e => simp [load_from_excel, h0, h1] at h
      | ok tl =>
        cases hd with
        | none =>
          have : its = tl := by
            simp only [load_from_excel, h0, h1, Except.ok.injEq] at h
            exact h.symm
          subst this
          obtain ⟨r2, hr2, hit2⟩ := ih _ h1 it hit
          exact ⟨r2, List.mem_cons_of_mem _ hr2, hit2⟩
        | some x =>
          have : its = x :: tl := by
            simp only [load_from_excel, h0, h1, Except.ok.injEq] at h
            exact h.symm
          subst this
          rcases List.mem_cons.mp hit with rfl | hmem
          · exact ⟨r, List.mem_cons_self _ _, h0⟩
          · obtain ⟨r2, hr2, hit2⟩ := ih _ h1 it hmem
            exact ⟨r2, List.mem_cons_of_mem _ hr2, hit2⟩

lemma load_from_excel_error :
    ∀ (rows : List ItemRow) (r : ItemRow), r ∈ rows → isErr (itemOfRow r) = true →
      isErr (load_from_excel rows) = true := by
  intro rows
  induction rows with
  | nil =>
    intro r hr
    cases hr
  | cons a rs ih =>
    intro r hr herr
    cases h0 : itemOfRow a with
    | error e => simp [load_from_excel, h0, isErr]
    | ok hd =>
      rcases List.mem_cons.mp hr with rfl | hmem
      · rw [h0] at herr
        simp [isErr] at herr
      · cases h1 : load_from_excel rs with
        | error e => simp [load_from_excel, h0, h1, isErr]
        | ok tl =>
          have := ih r hmem herr
          rw [h1] at this
          simp [isErr] at this

lemma vehicleOfRow_isErr (seen : List String) (r : VehicleRow) :
    isErr (vehicleOfRow seen r) =
      (isErr (floatOrZero r.capacity_m3) || isErr (floatOrZero r.fuel_capacity_l) ||
       isErr (floatOrZero r.fuel_use_l_per_hour) || isErr (floatOrZero r.purchase_price)) := by
  cases hc : floatOrZero r.capacity_m3 with
  | error e => simp [vehicleOfRow, hc, isErr]
  | ok c =>
    cases ht : floatOrZero r.fuel_capacity_l with
    | error e => simp [vehicleOfRow, hc, ht, isErr]
    | ok t =>
      cases hf : floatOrZero r.fuel_use_l_per_hour with
      | error e => simp [vehicleOfRow, hc, ht, hf, isErr]
      | ok f =>
        cases hp : floatOrZero r.purchase_price with
        | error e => simp [vehicleOfRow, hc, ht, hf, hp, isErr]
        | ok p => simp [vehicleOfRow, hc, ht, hf, hp, isErr]

lemma convertAux_error :
    ∀ (rows : List VehicleRow) (seen : List String) (r : VehicleRow), r ∈ rows →
      isErr (floatOrZero r.capacity_m3) = true →
      isErr (convertAux seen rows) = true := by
  intro rows
  induction rows with
  | nil =>
    intro seen r hr
    cases hr
  | cons a rs ih =>
    intro seen r hr herr
    cases h0 : vehicleOfRow seen a with
    | error e => simp [convertAux, h0, isErr]
    | ok v =>
      rcases List.mem_cons.mp hr with rfl | hmem
      · exfalso
        have := vehicleOfRow_isErr seen r
        rw [h0, herr] at this
        simp [isErr] at this
      · cases h1 : convertAux (seen ++ [v.id]) rs with
        | error e => simp [convertAux, h0, h1, isErr]
        | ok rest =>
          have := ih (seen ++ [v.id]) r hmem herr
          rw [h1] at this
          simp [isErr] at this


/-! ### Supporting lemmas: the JSON round trip -/

lemma jsonItem_exportJItem {it : Item}
    (hb : it.buy_price_display = round_display_price it.buy_price_internal)
    (hs : it.sell_price_display = round_display_price it.sell_price_internal)
    (h0 : it.sell_price_internal ≠ 0 ∨ it.buy_price_internal = 0) :
    jsonItem (exportJItem it) = it := by
  obtain ⟨c, n, cm, cs, b, bd, s, sd, w, pu, se, cr, pg, nt⟩ := it
  simp only at hb hs h0
  by_cases hbz : b = 0
  · subst hbz
    by_cases hsz : s = 0
    · subst hsz
      simp [jsonItem, exportJItem, pyOrN, pyOrS, calculate_sell_price, hb, hs]
      by_cases hcm : cm = "" <;> by_cases hcs : cs = "" <;> simp [hcm, hcs]
    · simp [jsonItem, exportJItem, pyOrN, pyOrS, hsz, hb, hs]
      by_cases hcm : cm = "" <;> by_cases hcs : cs = "" <;> simp [hcm, hcs]
  · have hsz : s ≠ 0 := by
      rcases h0 with h | h
      · exact h
      · exact absurd h hbz
    simp [jsonItem, exportJItem, pyOrN, pyOrS, hbz, hsz, hb, hs]
    by_cases hcm : cm = "" <;> by_cases hcs : cs = "" <;> simp [hcm, hcs]

lemma roundtrip_list (its : List Item)
    (h : ∀ it ∈ its,
      it.buy_price_display = round_display_price it.buy_price_internal ∧
      it.sell_price_display = round_display_price it.sell_price_internal ∧
      (it.sell_price_internal ≠ 0 ∨ it.buy_price_internal = 0)) :
    load_from_json (export_to_json its) = its := by
  induction its with
  | nil => rfl
  | cons it rest ih =>
    have hh := h it (List.mem_cons_self _ _)
    simp only [load_from_json, export_to_json, List.map_cons, List.map_map]
    have h1 : jsonItem (exportJItem it) = it := jsonItem_exportJItem hh.1 hh.2.1 hh.2.2
    have h2 := ih fun x hx => h x (List.mem_cons_of_mem _ hx)
    simp only [load_from_json, export_to_json, List.map_map] at h2
    simp [h1, h2]


/-! ### Supporting lemmas: whitespace collapsing -/

lemma collapseWsAux_true (l : List Char) :
    collapseWsAux true l = collapseWsAux false (l.dropWhile isWs) := by
  induction l with
  | nil => rfl
  | cons c r ih =>
    by_cases h : isWs c
    · simp only [collapseWsAux, h, if_true, List.dropWhile_cons, ih]
    · simp [collapseWsAux, h, List.dropWhile_cons]

lemma specCollapse_eq (l : List Char) : specCollapse l = collapseWsAux false l := by
  induction l using specCollapse.induct with
  | case1 => rfl
  | case2 c h => simp [specCollapse, collapseWsAux, h]
  | case3 c h => simp [specCollapse, collapseWsAux, h]
  | case4 c d r hc hd ih =>
    simp [specCollapse, hc, hd, ih, collapseWsAux, collapseWsAux_true, List.dropWhile_cons]
  | case5 c d r hc hd ih =>
    simp [specCollapse, hc, hd, ih, collapseWsAux, collapseWsAux_true, List.dropWhile_cons]
  | case6 c d r hc ih =>
    simp [specCollapse, hc, ih, collapseWsAux]

lemma generate_vehicle_id_eq_spec_trimmed (name : String) :
    generate_vehicle_id name = spec_candidate_id_trimmed name := by
  simp only [generate_vehicle_id, spec_candidate_id_trimmed, collapseWs, specCollapse_eq]


/-! ### Supporting lemmas: deduplication, sorting and numbering -/

lemma dedupFirstAux_spec {α : Type} [DecidableEq α] :
    ∀ (l : List α) (seen : List α),
      (∀ x ∈ dedupFirstAux seen l, x ∉ seen) ∧ (dedupFirstAux seen l).Nodup := by
  intro l
  induction l with
  | nil => intro seen; simp [dedupFirstAux]
  | cons a r ih =>
    intro seen
    by_cases h : a ∈ seen
    · simpa [dedupFirstAux, h] using ih seen
    · obtain ⟨h1, h2⟩ := ih (a :: seen)
      simp only [dedupFirstAux, h, if_false]
      refine ⟨?_, ?_⟩
      · intro x hx
        rcases List.mem_cons.mp hx with rfl | hmem
        · exact h
        · exact fun hc => h1 x hmem (List.mem_cons_of_mem _ hc)
      · refine List.nodup_cons.mpr ⟨?_, h2⟩
        intro hc
        exact h1 a hc (List.mem_cons_self _ _)

lemma dedupFirst_nodup {α : Type} [DecidableEq α] (l : List α) : (dedupFirst l).Nodup :=
  (dedupFirstAux_spec l []).2

lemma insertLe_perm {α : Type} (le : α → α → Bool) (x : α) :
    ∀ l : List α, (insertLe le x l).Perm (x :: l) := by
  intro l
  induction l with
  | nil => exact List.Perm.refl _
  | cons y r ih =>
    by_cases h : le x y
    · simp [insertLe, h]
    · simp only [insertLe, h, if_false]
      exact (ih.cons y).trans (List.Perm.swap x y r)

lemma insertionSort_perm {α : Type} (le : α → α → Bool) :
    ∀ l : List α, (insertionSort le l).Perm l := by
  intro l
  induction l with
  | nil => exact List.Perm.refl _
  | cons x r ih =>
    exact (insertLe_perm le x (insertionSort le r)).trans (ih.cons x)

lemma insertLe_pairwise {α : Type} {le : α → α → Bool}
    (htot : ∀ a b, le a b = true ∨ le b a = true)
    (htrans : ∀ a b c, le a b = true → le b c = true → le a c = true)
    (x : α) :
    ∀ l : List α, l.Pairwise (fun a b => le a b = true) →
      (insertLe le x l).Pairwise (fun a b => le a b = true) := by
  intro l
  induction l with
  | nil => intro _; simp [insertLe]
  | cons y r ih =>
    intro hp
    obtain ⟨hy, hr⟩ := List.pairwise_cons.mp hp
    by_cases h : le x y
    · simp only [insertLe, h, if_true]
      refine List.pairwise_cons.mpr ⟨?_, hp⟩
      intro b hb
      rcases List.mem_cons.mp hb with rfl | hmem
      · exact h
      · exact htrans x y b h (hy b hmem)
    · simp only [insertLe, h, if_false]
      refine List.pairwise_cons.mpr ⟨?_, ih hr⟩
      intro b hb
      have hyx : le y x = true := by
        rcases htot x y with h1 | h1
        · exact absurd h1 h
        · exact h1
      have hmem := (insertLe_perm le x r).mem_iff.mp hb
      rcases List.mem_cons.mp hmem with rfl | hmem2
      · exact hyx
      · exact hy b hmem2

lemma insertionSort_pairwise {α : Type} {le : α → α → Bool}
    (htot : ∀ a b, le a b = true ∨ le b a = true)
    (htrans : ∀ a b c, le a b = true → le b c = true → le a c = true) :
    ∀ l : List α, (insertionSort le l).Pairwise (fun a b => le a b = true) := by
  intro l
  induction l with
  | nil => simp [insertionSort]
  | cons x r ih => exact insertLe_pairwise htot htrans x _ ih

lemma numberMaps_proj : ∀ (l : List (String × String)) (n : Nat),
    (numberMaps n l).map (fun m => (m.abbr, m.name)) = l := by
  intro l
  induction l with
  | nil => intro n; rfl
  | cons p r ih => intro n; simp [numberMaps, ih]

lemma numberMaps_ids : ∀ (l : List (String × String)) (n : Nat) (i : Nat)
    (h : i < (numberMaps n l).length), ((numberMaps n l).get ⟨i, h⟩).id = n + i := by
  intro l
  induction l with
  | nil =>
    intro n i h
    simp [numberMaps] at h
  | cons p r ih =>
    intro n i h
    match i with
    | 0 => rfl
    | j + 1 =>
      have := ih (n + 1) j (by simpa [numberMaps] using h)
      simpa [numberMaps, Nat.add_assoc, Nat.add_comm 1 j] using this

lemma numberTypes_proj : ∀ (l : List String) (n : Nat),
    (numberTypes n l).map TypeEntry.name = l := by
  intro l
  induction l with
  | nil => intro n; rfl
  | cons p r ih => intro n; simp [numberTypes, ih]

lemma numberTypes_ids : ∀ (l : List String) (n : Nat) (i : Nat)
    (h : i < (numberTypes n l).length), ((numberTypes n l).get ⟨i, h⟩).id = n + i := by
  intro l
  induction l with
  | nil =>
    intro n i h
    simp [numberTypes] at h
  | cons p r ih =>
    intro n i h
    match i with
    | 0 => rfl
    | j + 1 =>
      have := ih (n + 1) j (by simpa [numberTypes] using h)
      simpa [numberTypes, Nat.add_assoc, Nat.add_comm 1 j] using this


/-! ### Supporting lemmas: lexicographic comparison -/

lemma lexLe_total : ∀ a b : List Char, lexLe a b = true ∨ lexLe b a = true := by
  intro a
  induction a with
  | nil => intro b; left; rfl
  | cons x as ih =>
    intro b
    cases b with
    | nil => right; rfl
    | cons y bs =>
      by_cases h1 : x.toNat < y.toNat
      · left
        simp [lexLe, h1]
      · by_cases h2 : y.toNat < x.toNat
        · right
          simp [lexLe, h2]
        · rcases ih bs with h | h
          · left
            simp [lexLe, h1, h2, h]
          · right
            simp [lexLe, h1, h2, h]

lemma lexLe_trans : ∀ a b c : List Char,
    lexLe a b = true → lexLe b c = true → lexLe a c = true := by
  intro a
  induction a with
  | nil => intro b c _ _; rfl
  | cons x as ih =>
    intro b c hab hbc
    cases b with
    | nil => simp [lexLe] at hab
    | cons y bs =>
      cases c with
      | nil => simp [lexLe] at hbc
      | cons z cs =>
        by_cases hxy : x.toNat < y.toNat
        · by_cases hyz : y.toNat < z.toNat
          · simp [lexLe, show x.toNat < z.toNat by omega]
          · by_cases hzy : z.toNat < y.toNat
            · simp [lexLe, hyz, hzy] at hbc
            · have : x.toNat < z.toNat := by omega
              simp [lexLe, this]
        · by_cases hyx : y.toNat < x.toNat
          · simp [lexLe, hxy, hyx] at hab
          · by_cases hyz : y.toNat < z.toNat
            · have : x.toNat < z.toNat := by omega
              simp [lexLe, this]
            · by_cases hzy : z.toNat < y.toNat
              · simp [lexLe, hyz, hzy] at hbc
              · have h1 : ¬ x.toNat < z.toNat := by omega
                have h2 : ¬ z.toNat < x.toNat := by omega
                simp only [lexLe, hxy, hyx, if_false] at hab
                simp only [lexLe, hyz, hzy, if_false] at hbc
                simp only [lexLe, h1, h2, if_false]
                exact ih bs cs hab hbc

lemma pyStrLe_total (a b : String) : pyStrLe a b = true ∨ pyStrLe b a = true :=
  lexLe_total a.data b.data

lemma pyStrLe_trans {a b c : String} (h1 : pyStrLe a b = true) (h2 : pyStrLe b c = true) :
    pyStrLe a c = true :=
  lexLe_trans a.data b.data c.data h1 h2


/-! ### The claims -/

section Claims

attribute [local semireducible] Rat.mul Rat.add Rat.sub Rat.inv Rat.ofScientific

/-- C1, counterexample: in the JSON load path an explicit sell price of
zero next to buy price 100 is not kept, whether it is supplied under
`sell_price_internal` or under `sellPriceInternal`: the loaded record's
sell price is 70 = 100 × 0.70, not the supplied 0. -/
theorem claim_C1_counterexample :
    c1obj.sell_price_internal = some 0 ∧
    (load_from_json [c1obj]).map Item.sell_price_internal = [70] ∧
    c1obj2.sellPriceInternal = some 0 ∧
    (load_from_json [c1obj2]).map Item.sell_price_internal = [70] :=
  ⟨rfl, by decide, rfl, by decide⟩

/-- C1, amended: in the spreadsheet path `sell_price_internal` equals
the supplied sell price whenever one is supplied and
`buy_price_internal` × 0.70 otherwise.  In the JSON path the or-chain
over `sell_price_internal`, `sellPriceInternal`, `sell_price` gives:
a non-zero value under `sell_price_internal` is kept; when that key is
absent or zero, a non-zero value under `sellPriceInternal` is kept;
when both internal keys are absent or zero, a value under `sell_price`
is kept as supplied, even zero; and when both internal keys are absent
or zero and `sell_price` is absent, the derived 70 % value is used —
so a supplied zero under either internal key is treated as missing. -/
theorem claim_C1 :
    (∀ (r : ItemRow) (it : Item), itemOfRow r = .ok (some it) →
      (r.sell_price = .na →
        it.sell_price_internal = calculate_sell_price it.buy_price_internal (7 / 10)) ∧
      (∀ x, r.sell_price ≠ .na → pyFloatCell r.sell_price = .ok x →
        it.sell_price_internal = x)) ∧
    (∀ j : JItem,
      (∀ s, j.sell_price_internal = some s → s ≠ 0 →
        (jsonItem j).sell_price_internal = s) ∧
      (∀ s, (j.sell_price_internal = none ∨ j.sell_price_internal = some 0) →
        j.sellPriceInternal = some s → s ≠ 0 →
        (jsonItem j).sell_price_internal = s) ∧
      (∀ s, (j.sell_price_internal = none ∨ j.sell_price_internal = some 0) →
        (j.sellPriceInternal = none ∨ j.sellPriceInternal = some 0) →
        j.sell_price = some s → (jsonItem j).sell_price_internal = s) ∧
      ((j.sell_price_internal = none ∨ j.sell_price_internal = some 0) →
        (j.sellPriceInternal = none ∨ j.sellPriceInternal = some 0) →
        j.sell_price = none →
        (jsonItem j).sell_price_internal =
          calculate_sell_price (jsonItem j).buy_price_internal (7 / 10))) := by
  constructor
  · intro r it h
    obtain ⟨_, _, _, _, h5, h6, _, _⟩ := itemOfRow_ok h
    exact ⟨h5, h6⟩
  · intro j
    refine ⟨?_, ?_, ?_, ?_⟩
    · intro s hs hz
      simp [jsonItem, pyOrN, hs, hz]
    · intro s h1 h2 hz
      rcases h1 with h1 | h1 <;> simp [jsonItem, pyOrN, h1, h2, hz]
    · intro s h1 h2 h3
      rcases h1 with h1 | h1 <;> rcases h2 with h2 | h2 <;>
        simp [jsonItem, pyOrN, h1, h2, h3]
    · intro h1 h2 h3
      rcases h1 with h1 | h1 <;> rcases h2 with h2 | h2 <;>
        simp [jsonItem, pyOrN, h1, h2, h3]

/-- C1, witness: the spec's Dynamite example row (buy 100, no sell
price) loads with sell price 70, and a JSON object with a non-zero sell
price 80 under the `sellPriceInternal` key keeps it. -/
theorem claim_C1_witness :
    dynamiteRow.sell_price = CellVal.na ∧
    dynamiteItem.sell_price_internal =
      calculate_sell_price dynamiteItem.buy_price_internal (7 / 10) ∧
    (jsonItem c1objB).sell_price_internal = 80 :=
  ⟨rfl, (claim_C1.1 dynamiteRow dynamiteItem (by decide)).1 rfl,
   (claim_C1.2 c1objB).2.1 80 (Or.inl rfl) rfl (by decide)⟩

/-- C2, counterexample: the JSON load path emits a record even for an
object with no name at all — the loaded record has the empty name. -/
theorem claim_C2_counterexample :
    (load_from_json [{}]).length = 1 ∧ (load_from_json [{}]).map Item.name = [""] :=
  ⟨by decide, by decide⟩

/-- C2, amended: in the spreadsheet path a row whose stringified name is
the missing-value placeholder "nan" or blank after trimming is skipped,
and every emitted record has a non-empty trimmed name; the JSON path
never skips an object (an absent or blank name yields a record with that
name). -/
theorem claim_C2 :
    (∀ r : ItemRow, (pyStr r.name = "nan" ∨ pyStrip (pyStr r.name) = "") →
      itemOfRow r = .ok none) ∧
    (∀ rows its, load_from_excel rows = .ok its → ∀ it ∈ its, pyStrip it.name ≠ "") ∧
    (∀ objs : List JItem, (load_from_json objs).length = objs.length) := by
  refine ⟨fun r h => itemOfRow_skip h, ?_, fun objs => by simp [load_from_json]⟩
  intro rows its h it hit
  obtain ⟨r, _, hr⟩ := load_from_excel_mem rows its h it hit
  obtain ⟨_, h2, h3, _⟩ := itemOfRow_ok hr
  rw [h3, pyStrip_idem]
  exact h2

/-- C2, witness: a whitespace-only name is skipped; a loaded record's
trimmed name is non-empty; the JSON path emits one record per object. -/
theorem claim_C2_witness :
    itemOfRow { name := .str "   " } = .ok none ∧
    pyStrip c2item.name ≠ "" ∧
    (load_from_json [{}]).length = [({} : JItem)].length :=
  ⟨claim_C2.1 _ (Or.inr (by decide)),
   claim_C2.2.1 [c2row] [c2item] (by decide) c2item (by decide),
   claim_C2.2.2 [{}]⟩

/-- C3: no two vehicle records of one run share an id, and each row's id
is the first unused candidate in the sequence original, original_2,
original_3, ... judged against the ids produced for the earlier rows.
(The whole conversion is a pure function of the row list, so the suffix
assignment is deterministic in the input row order.) -/
theorem claim_C3 :
    ∀ rows vs, convert_excel_to_vehicles rows = .ok vs →
      (vs.map Vehicle.id).Nodup ∧
      ∀ i (hv : i < vs.length) (hr : i < rows.length),
        ∃ k, (vs.get ⟨i, hv⟩).id =
            cand (generate_vehicle_id (pyStrip (pyStr (rows.get ⟨i, hr⟩).vehicle_name))) k ∧
          cand (generate_vehicle_id (pyStrip (pyStr (rows.get ⟨i, hr⟩).vehicle_name))) k ∉
            (vs.take i).map Vehicle.id ∧
          ∀ j < k,
            cand (generate_vehicle_id (pyStrip (pyStr (rows.get ⟨i, hr⟩).vehicle_name))) j ∈
              (vs.take i).map Vehicle.id := by
  intro rows vs h
  obtain ⟨hlen, hfresh, hnodup, hidx⟩ := convertAux_spec rows [] vs h
  refine ⟨hnodup, ?_⟩
  intro i hv hr
  have h2 := (vehicleOfRow_ok (hidx i hv hr)).1
  rw [List.nil_append] at h2
  obtain ⟨k, hk1, hk2, hk3⟩ :=
    pickId_least (generate_vehicle_id (pyStrip (pyStr (rows.get ⟨i, hr⟩).vehicle_name)))
      ((vs.take i).map Vehicle.id)
  exact ⟨k, by rw [h2, hk1], hk2, hk3⟩

/-- C3, witness: two rows named "Dozer D11" get ids DOZER_D11 and
DOZER_D11_2, which are distinct. -/
theorem claim_C3_witness :
    convert_excel_to_vehicles [c3row, c3row] = .ok [c3outA, c3outB] ∧
    (([c3outA, c3outB]).map Vehicle.id).Nodup :=
  ⟨by decide, (claim_C3 [c3row, c3row] [c3outA, c3outB] (by decide)).1⟩

/-- C4, counterexample: a bucket-category row with a missing capacity
cell produces a record in which both capacity fields are zero, so
"exactly one of the two is non-zero" fails. -/
theorem claim_C4_counterexample :
    convert_excel_to_vehicles [c4row] = .ok [c4out] ∧
    ¬((c4out.bucket_capacity_m3 ≠ 0 ∧ c4out.truck_capacity_m3 = 0) ∨
      (c4out.bucket_capacity_m3 = 0 ∧ c4out.truck_capacity_m3 ≠ 0)) :=
  ⟨by decide, by decide⟩

/-- C4, amended: at most one of the two capacity fields is non-zero; the
field that can receive the capacity is chosen by membership of
category_main in the fixed truck-like set {Rock Truck, Truck}, and the
other field is always zero (both are zero when the capacity cell is
missing or zero). -/
theorem claim_C4 :
    ∀ rows vs, convert_excel_to_vehicles rows = .ok vs → ∀ v ∈ vs,
      (v.bucket_capacity_m3 = 0 ∨ v.truck_capacity_m3 = 0) ∧
      ((v.category_main = "Rock Truck" ∨ v.category_main = "Truck") →
        v.bucket_capacity_m3 = 0) ∧
      (¬(v.category_main = "Rock Truck" ∨ v.category_main = "Truck") →
        v.truck_capacity_m3 = 0) := by
  intro rows vs h v hv
  obtain ⟨hlen, _, _, hidx⟩ := convertAux_spec rows [] vs h
  obtain ⟨⟨i, hi⟩, rfl⟩ := List.mem_iff_get.mp hv
  have h1 := hidx i hi (by omega)
  obtain ⟨_, _, _, _, _, hb, ht, hor, _⟩ := vehicleOfRow_ok h1
  refine ⟨hor, ?_, ?_⟩
  · intro hmem
    apply hb
    simp only [determine_capacity_type]
    rw [if_pos hmem]
  · intro hmem
    apply ht
    simp only [determine_capacity_type]
    rw [if_neg hmem]
    decide

/-- C4, witness: the amended statement instantiated at the loader row
with a missing capacity. -/
theorem claim_C4_witness :
    (c4out.bucket_capacity_m3 = 0 ∨ c4out.truck_capacity_m3 = 0) ∧
    ((c4out.category_main = "Rock Truck" ∨ c4out.category_main = "Truck") →
      c4out.bucket_capacity_m3 = 0) ∧
    (¬(c4out.category_main = "Rock Truck" ∨ c4out.category_main = "Truck") →
      c4out.truck_capacity_m3 = 0) :=
  claim_C4 [c4row] [c4out] (by decide) c4out (by decide)

/-- C5: evaluation of `parse_bool` at the decisive inputs.  A real
checkmark `✓` (U+2713) parses as false under either default, because the
source's truthy list contains the mojibake three-character string `âœ“`
(the UTF-8 bytes of `✓` decoded once more as UTF-8) instead of the
checkmark; the remaining conjuncts confirm the rest of the claimed
behavior (booleans pass through, non-zero numbers are truthy, trimmed
case-insensitive string matching, missing values take the default). -/
theorem claim_C5 :
    parse_bool (.str "✓") true = false ∧
    parse_bool (.str "✓") false = false ∧
    parse_bool (.str "âœ“") false = true ∧
    parse_bool (.str " TRUE ") false = true ∧
    parse_bool (.str "Yes") false = true ∧
    parse_bool (.str "x") false = true ∧
    parse_bool (.num 2) false = true ∧
    parse_bool (.num 0) true = false ∧
    parse_bool (.boolv true) false = true ∧
    parse_bool (.boolv false) true = false ∧
    parse_bool .na true = true ∧
    parse_bool .na false = false ∧
    parse_bool (.str "no") true = false := by
  decide

/-- C6, counterexample: for the name "! CAT" the code's identifier is
"CAT" (the source strips before collapsing), while the claim's described
algorithm — remove, collapse runs of whitespace to underscores,
upper-case, with no trimming — yields "_CAT". -/
theorem claim_C6_counterexample :
    generate_vehicle_id "! CAT" = "CAT" ∧
    spec_candidate_id "! CAT" = "_CAT" ∧
    generate_vehicle_id "! CAT" ≠ spec_candidate_id "! CAT" :=
  ⟨by decide, by decide, by decide⟩

/-- C6, amended: the candidate identifier equals the result of removing
every character that is not an ASCII letter, digit or whitespace,
trimming leading and trailing whitespace, collapsing each remaining run
of whitespace to a single underscore, and upper-casing; "CAT 797F!!"
yields CAT_797F and a second identical row yields CAT_797F_2. -/
theorem claim_C6 :
    (∀ name, generate_vehicle_id name = spec_candidate_id_trimmed name) ∧
    generate_vehicle_id "CAT 797F!!" = "CAT_797F" ∧
    (convert_excel_to_vehicles [c6row, c6row]).map (List.map Vehicle.id) =
      .ok ["CAT_797F", "CAT_797F_2"] :=
  ⟨generate_vehicle_id_eq_spec_trimmed, by decide, by decide⟩

/-- C7, counterexample: one map name occurring with two different
abbreviations ("ARC - North Pit" and the separator-less "Home Base",
both on map "Arctic") appears twice in the maps table, because
`drop_duplicates` works on (Abbrev, Map) pairs. -/
theorem claim_C7_counterexample :
    (buildMaps c7rows).map MapEntry.name = ["Arctic", "Arctic"] ∧
    ¬((buildMaps c7rows).map MapEntry.name).Nodup :=
  ⟨by decide, by decide⟩

/-- C7, amended: the maps table contains each distinct
(abbreviation, map name) pair exactly once — a map name can recur under
different abbreviations — sorted by abbreviation with 1-based
consecutive ids; the types table contains each distinct type name
exactly once, sorted, with 1-based consecutive ids.  (Both tables are
pure functions of the input rows, so re-running is deterministic.) -/
theorem claim_C7 :
    ∀ rows : List LocationRow,
      ((buildMaps rows).map (fun m => (m.abbr, m.name))).Nodup ∧
      (buildMaps rows).Pairwise (fun a b => pyStrLe a.abbr b.abbr = true) ∧
      (∀ i (h : i < (buildMaps rows).length), ((buildMaps rows).get ⟨i, h⟩).id = i + 1) ∧
      ((buildTypes rows).map TypeEntry.name).Nodup ∧
      (buildTypes rows).Pairwise (fun a b => pyStrLe a.name b.name = true) ∧
      (∀ i (h : i < (buildTypes rows).length), ((buildTypes rows).get ⟨i, h⟩).id = i + 1) := by
  intro rows
  have htotM : ∀ a b : String × String, pyStrLe a.1 b.1 = true ∨ pyStrLe b.1 a.1 = true :=
    fun a b => pyStrLe_total a.1 b.1
  have htransM : ∀ a b c : String × String,
      pyStrLe a.1 b.1 = true → pyStrLe b.1 c.1 = true → pyStrLe a.1 c.1 = true :=
    fun _ _ _ h1 h2 => pyStrLe_trans h1 h2
  refine ⟨?_, ?_, ?_, ?_, ?_, ?_⟩
  · rw [buildMaps, numberMaps_proj]
    exact ((insertionSort_perm _ _).nodup_iff).mpr (dedupFirst_nodup _)
  · have hp : ((numberMaps 1 (insertionSort (fun a b => pyStrLe a.1 b.1)
        (dedupFirst (abbrevMapPairs rows)))).map (fun m => (m.abbr, m.name))).Pairwise
        (fun p q => pyStrLe p.1 q.1 = true) := by
      rw [numberMaps_proj]
      exact insertionSort_pairwise htotM htransM _
    exact List.pairwise_map.mp hp
  · intro i h
    have h2 := numberMaps_ids
      (insertionSort (fun a b => pyStrLe a.1 b.1) (dedupFirst (abbrevMapPairs rows))) 1 i h
    rw [Nat.add_comm] at h2
    exact h2
  · rw [buildTypes, numberTypes_proj]
    exact ((insertionSort_perm _ _).nodup_iff).mpr (dedupFirst_nodup _)
  · have hp : ((numberTypes 1 (insertionSort pyStrLe
        (dedupFirst (rows.map LocationRow.ltype)))).map TypeEntry.name).Pairwise
        (fun p q => pyStrLe p q = true) := by
      rw [numberTypes_proj]
      exact insertionSort_pairwise pyStrLe_total (fun _ _ _ h1 h2 => pyStrLe_trans h1 h2) _
    exact List.pairwise_map.mp hp
  · intro i h
    have h2 := numberTypes_ids
      (insertionSort pyStrLe (dedupFirst (rows.map LocationRow.ltype))) 1 i h
    rw [Nat.add_comm] at h2
    exact h2

/-- C7, witness: on the two-row input the first map entry has id 1 and
the second type entry has id 2. -/
theorem claim_C7_witness :
    ((buildMaps c7rows).get ⟨0, by decide⟩).id = 0 + 1 ∧
    ((buildTypes c7rows).get ⟨1, by decide⟩).id = 1 + 1 :=
  ⟨(claim_C7 c7rows).2.2.1 0 (by decide), (claim_C7 c7rows).2.2.2.2.2 1 (by decide)⟩

/-- C8, counterexample: the normalized record for an explicit sell price
of zero (buy 100) does not round-trip: reloading its JSON yields sell
price 70. -/
theorem claim_C8_counterexample :
    load_from_excel [c8row] = .ok [c8item] ∧
    (load_from_json (export_to_json [c8item])).map Item.sell_price_internal = [70] ∧
    load_from_json (export_to_json [c8item]) ≠ [c8item] :=
  ⟨by decide, by decide, by decide⟩

/-- C8, amended: exporting normalized records to JSON and reloading them
is the identity provided each record's sell price is non-zero or its buy
price is zero (a zero sell price next to a non-zero buy price is
re-derived as 70 % of buy on reload); the display fields are the
normalizers' roundings of the internal prices. -/
theorem claim_C8 :
    ∀ its : List Item,
      (∀ it ∈ its,
        it.buy_price_display = round_display_price it.buy_price_internal ∧
        it.sell_price_display = round_display_price it.sell_price_internal ∧
        (it.sell_price_internal ≠ 0 ∨ it.buy_price_internal = 0)) →
      load_from_json (export_to_json its) = its :=
  fun its h => roundtrip_list its h

/-- C8, witness: a normalized record with buy 100 / sell 70
round-trips unchanged. -/
theorem claim_C8_witness :
    load_from_json (export_to_json [c8good]) = [c8good] :=
  claim_C8 [c8good] (by decide)

/-- C9: a present but unparseable numeric field (modelled by a string
cell that the decimal parser rejects) makes the row processor raise, and
any raising row makes the whole run raise, for the item and the vehicle
importers alike; a genuinely absent numeric field instead defaults to 0
and the run continues. -/
theorem claim_C9 :
    (∀ (r : ItemRow) (s : String), pyStr r.name ≠ "nan" → pyStrip (pyStr r.name) ≠ "" →
      r.buy_price = .str s → parseDecimal s = none → isErr (itemOfRow r) = true) ∧
    (∀ rows r, r ∈ rows → isErr (itemOfRow r) = true →
      isErr (load_from_excel rows) = true) ∧
    (∀ (r : ItemRow) (it : Item), itemOfRow r = .ok (some it) → r.buy_price = .na →
      it.buy_price_internal = 0) ∧
    (∀ (rows : List VehicleRow) (r : VehicleRow) (s : String), r ∈ rows →
      r.capacity_m3 = .str s → parseDecimal s = none →
      isErr (convert_excel_to_vehicles rows) = true) ∧
    (∀ (rows : List VehicleRow) (vs : List Vehicle), convert_excel_to_vehicles rows = .ok vs →
      ∀ i (hv : i < vs.length) (hr : i < rows.length),
        (rows.get ⟨i, hr⟩).capacity_m3 = .na →
        (vs.get ⟨i, hv⟩).bucket_capacity_m3 = 0 ∧ (vs.get ⟨i, hv⟩).truck_capacity_m3 = 0) := by
  refine ⟨?_, load_from_excel_error, ?_, ?_, ?_⟩
  · intro r s h1 h2 hbp hparse
    have hfe : floatOrZero r.buy_price = .error ("could not convert string to float: " ++ s) := by
      rw [hbp]
      simp [floatOrZero, pyFloatCell, hparse]
    simp [itemOfRow, h1, h2, hfe, isErr]
  · exact fun r it h hna => (itemOfRow_ok h).2.2.2.1 hna
  · intro rows r s hmem hcap hparse
    apply convertAux_error rows [] r hmem
    rw [hcap]
    simp [floatOrZero, pyFloatCell, hparse, isErr]
  · intro rows vs h i hv hr hna
    obtain ⟨hlen, _, _, hidx⟩ := convertAux_spec rows [] vs h
    exact (vehicleOfRow_ok (hidx i hv hr)).2.2.2.2.2.2.2.2 hna

/-- C9, witness: the malformed buy price "12x" aborts the item run; the
malformed capacity "n/a" aborts the vehicle run; a missing buy price
defaults to 0 and the row still loads. -/
theorem claim_C9_witness :
    isErr (itemOfRow c9badItemRow) = true ∧
    isErr (load_from_excel [c9badItemRow]) = true ∧
    c9naItem.buy_price_internal = 0 ∧
    isErr (convert_excel_to_vehicles [c9badVehicleRow]) = true :=
  ⟨claim_C9.1 c9badItemRow "12x" (by decide) (by decide) rfl (by decide),
   claim_C9.2.1 [c9badItemRow] c9badItemRow (by decide) (by decide),
   claim_C9.2.2.1 c9naRow c9naItem (by decide) rfl,
   claim_C9.2.2.2.1 [c9badVehicleRow] c9badVehicleRow "n/a" (by decide) rfl (by decide)⟩

/-- C10: the vehicle normalizer emits exactly one record per input row,
in input order; a missing vehicle name is stringified (to "nan") rather
than skipped, and every emitted record has active = 1. -/
theorem claim_C10 :
    ∀ rows vs, convert_excel_to_vehicles rows = .ok vs →
      vs.length = rows.length ∧
      ∀ i (hv : i < vs.length) (hr : i < rows.length),
        (vs.get ⟨i, hv⟩).name = pyStrip (pyStr (rows.get ⟨i, hr⟩).vehicle_name) ∧
        (vs.get ⟨i, hv⟩).active = 1 ∧
        ((rows.get ⟨i, hr⟩).vehicle_name = .na → (vs.get ⟨i, hv⟩).name = "nan") := by
  intro rows vs h
  obtain ⟨hlen, _, _, hidx⟩ := convertAux_spec rows [] vs h
  refine ⟨hlen, ?_⟩
  intro i hv hr
  obtain ⟨_, hname, hact, _⟩ := vehicleOfRow_ok (hidx i hv hr)
  refine ⟨hname, hact, ?_⟩
  intro hna
  rw [hname, hna]
  decide

/-- C10, witness: a fully missing row still produces one record, with
name "nan" and active = 1. -/
theorem claim_C10_witness :
    convert_excel_to_vehicles [c10row] = .ok [c10veh] ∧
    ([c10veh].get ⟨0, by decide⟩).active = 1 ∧
    ([c10veh].get ⟨0, by decide⟩).name = "nan" :=
  ⟨by decide,
   ((claim_C10 [c10row] [c10veh] (by decide)).2 0 (by decide) (by decide)).2.1,
   ((claim_C10 [c10row] [c10veh] (by decide)).2 0 (by decide) (by decide)).2.2 rfl⟩

end Claims

end Frontier
